import Mathlib

/-!
Verification of the fornax application-session scheduler
(`pkg/fornaxcore/application/application_session.go`) against its
natural-language specification.

The Go code is embedded shallowly: sessions, pods and the per-application
pool become Lean structures; Go maps become association lists; external
collaborators (SessionManager, PodManager) become an `Env` of oracle
functions plus an emitted list of external calls; wall-clock time is an
`Int` parameter measured in seconds.  Helper predicates that live in the
repository's `pkg/util` package (not included under `src/`) are modelled
from the specification's words and marked as such in their doc comments.
-/

/-- Session status enum, from `SessionStatus` in `applicationsession_types.go`. -/
inductive SessionStatusV where
  | Unspecified
  | Pending
  | Starting
  | Available
  | InUse
  | Closing
  | Closed
  | Timeout
deriving DecidableEq, Repr

/-- `AccessEndPoint` from `applicationsession_types.go`: protocol / ip / port. -/
structure AccessEndPoint where
  protocol : String
  ipAddress : String
  port : Int
deriving DecidableEq, Repr

/-- `v1.LocalObjectReference`: a name. -/
structure LocalObjectReference where
  name : String
deriving DecidableEq, Repr

/-- `ApplicationSessionStatus` from `applicationsession_types.go`.
`podReference` is used throughout `application_session.go`
(`session.Status.PodReference`).  Times are `Int` seconds. -/
structure ApplicationSessionStatus where
  accessEndPoints : List AccessEndPoint
  sessionStatus : SessionStatusV
  clientSessions : List LocalObjectReference
  availableTime : Option Int
  closeTime : Option Int
  availableTimeMicro : Int
  podReference : Option LocalObjectReference
deriving DecidableEq, Repr

/-- `ApplicationSessionSpec` from `applicationsession_types.go`. -/
structure ApplicationSessionSpec where
  applicationName : String
  sessionData : String
  killInstanceWhenSessionClosed : Bool
  closeGracePeriodSeconds : Option Int
  openTimeoutSeconds : Nat
deriving DecidableEq, Repr

/-- `ApplicationSession` with the object-meta fields the scheduler reads:
uid, creation timestamp and (nullable) deletion timestamp. -/
structure ApplicationSession where
  uid : String
  creationTimestamp : Int
  deletionTimestamp : Option Int
  spec : ApplicationSessionSpec
  status : ApplicationSessionStatus
deriving DecidableEq, Repr

/-- Declared container port of a pod (`v1.ContainerPort`): the fields read
by `bindSessionToPod` are `Protocol`, `HostIP` and `HostPort`. -/
structure ContainerPort where
  protocol : String
  hostIP : String
  hostPort : Int
deriving DecidableEq, Repr

/-- A pod container: only its declared ports matter to the scheduler. -/
structure Container where
  ports : List ContainerPort
deriving DecidableEq, Repr

/-- A pod as seen by the scheduler; `name` stands for `util.Name(pod)`
(namespace/name) and `terminated` models the pod lifecycle bit that
`util.PodNotTerminated` inspects. -/
structure Pod where
  name : String
  containers : List Container
  terminated : Bool
deriving DecidableEq, Repr

/-- `ie.SessionEvent`: the pod and session reported by a node. -/
structure SessionEvent where
  pod : Pod
  session : ApplicationSession
deriving DecidableEq, Repr

/-- Association-list lookup, modelling Go map read `m[k]`. -/
def aget {α : Type} : List (String × α) → String → Option α
  | [], _ => none
  | p :: rest, k => if p.1 = k then some p.2 else aget rest k

/-- Association-list store, modelling Go map write `m[k] = v`
(replace in place, or append when the key is new). -/
def aset {α : Type} : List (String × α) → String → α → List (String × α)
  | [], k, v => [(k, v)]
  | p :: rest, k, v => if p.1 = k then (k, v) :: rest else p :: aset rest k v

/-- Association-list delete, modelling Go `delete(m, k)`. -/
def adel {α : Type} : List (String × α) → String → List (String × α)
  | [], _ => []
  | p :: rest, k => if p.1 = k then adel rest k else p :: adel rest k

/-- String-set insert, modelling the pool pod's `sessions.Add`. -/
def setAdd (l : List String) (x : String) : List String :=
  if x ∈ l then l else l ++ [x]

/-- String-set delete, modelling the pool pod's `sessions.Delete`. -/
def setDel (l : List String) (x : String) : List String :=
  l.filter (fun y => ¬(y = x))

/-- Modelled from the spec: `util.SessionInTerminalState` is missing from
`src/`; the spec defines terminal states as Closed and Timeout. -/
def sessionInTerminalState (s : ApplicationSession) : Bool :=
  match s.status.sessionStatus with
  | SessionStatusV.Closed => true
  | SessionStatusV.Timeout => true
  | _ => false

/-- Modelled from the spec: `util.SessionIsOpen` is missing from `src/`;
the spec calls Starting, Available and InUse the open states. -/
def sessionIsOpen (s : ApplicationSession) : Bool :=
  match s.status.sessionStatus with
  | SessionStatusV.Starting => true
  | SessionStatusV.Available => true
  | SessionStatusV.InUse => true
  | _ => false

/-- Modelled from the spec: `util.SessionIsPending` is missing from `src/`;
the spec's pending band is status Unspecified or Pending. -/
def sessionIsPending (s : ApplicationSession) : Bool :=
  match s.status.sessionStatus with
  | SessionStatusV.Unspecified => true
  | SessionStatusV.Pending => true
  | _ => false

/-- Modelled from the spec: `util.SessionIsClosed` is missing from `src/`;
the spec treats a node report as a delete when the reported status is
terminal. -/
def sessionIsClosed (s : ApplicationSession) : Bool :=
  sessionInTerminalState s

/-- Modelled from the spec: `util.PodNotTerminated` is missing from `src/`;
the pod must not already be terminating. -/
def podNotTerminated (p : Pod) : Bool :=
  !p.terminated

/-- Validity of a `namespace/name` key as decided by
`cache.SplitMetaNamespaceKey`: at most one slash. -/
def isValidMetaNamespaceKey (s : String) : Bool :=
  decide ((s.toList.filter (fun c => c == '/')).length ≤ 1)

/-- `getSessionApplicationKey`: the application label when it is a valid
meta-namespace key, else an error (modelled as `none`). -/
def getSessionApplicationKey (session : ApplicationSession) : Option String :=
  if isValidMetaNamespaceKey session.spec.applicationName then
    some session.spec.applicationName
  else
    none

/-- `DefaultSessionOpenTimeoutDuration = 10 * time.Second`, in seconds. -/
def defaultSessionOpenTimeoutSeconds : Int := 10

/-- `DefaultSessionPendingTimeoutDuration = 5 * time.Second`, in seconds. -/
def defaultSessionPendingTimeoutSeconds : Int := 5

/-- The five result lists of `groupSessionsByState`. -/
structure SessionBands where
  pendingSessions : List ApplicationSession
  deletingSessions : List ApplicationSession
  closingSessions : List ApplicationSession
  timeoutSessions : List ApplicationSession
  activeSessions : List ApplicationSession
deriving DecidableEq, Repr

/-- Loop body of `groupSessionsByState` for one session `v`
(`application_session.go` lines 120-147).  `now` stands for the
`time.Now()` read in the loop. -/
def groupStep (now : Int) (bands : SessionBands) (v : ApplicationSession) : SessionBands :=
  let timeoutDuration : Int :=
    if v.spec.openTimeoutSeconds > 0 then (v.spec.openTimeoutSeconds : Int)
    else defaultSessionOpenTimeoutSeconds
  let pendingTimeoutTimeStamp : Int := now - timeoutDuration
  if v.status.sessionStatus = SessionStatusV.Closing then
    { bands with closingSessions := bands.closingSessions ++ [v] }
  else if v.deletionTimestamp ≠ none then
    { bands with deletingSessions := bands.deletingSessions ++ [v] }
  else if sessionIsPending v then
    if v.creationTimestamp < pendingTimeoutTimeStamp then
      { bands with timeoutSessions := bands.timeoutSessions ++ [v] }
    else
      { bands with pendingSessions := bands.pendingSessions ++ [v] }
  else if v.status.sessionStatus = SessionStatusV.Starting then
    if v.creationTimestamp < pendingTimeoutTimeStamp then
      { bands with timeoutSessions := bands.timeoutSessions ++ [v] }
    else
      { bands with activeSessions := bands.activeSessions ++ [v] }
  else if sessionIsOpen v then
    { bands with activeSessions := bands.activeSessions ++ [v] }
  else
    bands

/-- `groupSessionsByState` over the pool's session list. -/
def groupSessionsByState (now : Int) (sessions : List ApplicationSession) : SessionBands :=
  sessions.foldl (groupStep now) ⟨[], [], [], [], []⟩

/-- Following the claim's words (C2): the open timeout is
`spec.openTimeoutSeconds` seconds when positive, else 10 s. -/
def claimOpenTimeout (v : ApplicationSession) : Int :=
  if v.spec.openTimeoutSeconds > 0 then (v.spec.openTimeoutSeconds : Int) else 10

/-- Following the claim's words (C2): the closing band condition. -/
def claimClosingBand (v : ApplicationSession) : Prop :=
  v.status.sessionStatus = SessionStatusV.Closing

/-- Following the claim's words (C2): the deleting band condition. -/
def claimDeletingBand (v : ApplicationSession) : Prop :=
  ¬claimClosingBand v ∧ v.deletionTimestamp ≠ none

/-- Following the claim's words (C2): the timeout band condition. -/
def claimTimeoutBand (now : Int) (v : ApplicationSession) : Prop :=
  ¬claimClosingBand v ∧ v.deletionTimestamp = none ∧
  (v.status.sessionStatus = SessionStatusV.Unspecified ∨
   v.status.sessionStatus = SessionStatusV.Pending ∨
   v.status.sessionStatus = SessionStatusV.Starting) ∧
  now - v.creationTimestamp > claimOpenTimeout v

/-- Following the claim's words (C2): the pending band condition. -/
def claimPendingBand (now : Int) (v : ApplicationSession) : Prop :=
  ¬claimClosingBand v ∧ ¬claimDeletingBand v ∧ ¬claimTimeoutBand now v ∧
  (v.status.sessionStatus = SessionStatusV.Unspecified ∨
   v.status.sessionStatus = SessionStatusV.Pending)

/-- Following the claim's words (C2): the active band condition. -/
def claimActiveBand (now : Int) (v : ApplicationSession) : Prop :=
  ¬claimClosingBand v ∧ ¬claimDeletingBand v ∧ ¬claimTimeoutBand now v ∧
  ¬claimPendingBand now v ∧
  (v.status.sessionStatus = SessionStatusV.Starting ∨
   v.status.sessionStatus = SessionStatusV.Available ∨
   v.status.sessionStatus = SessionStatusV.InUse)

instance (v : ApplicationSession) : Decidable (claimClosingBand v) := by
  unfold claimClosingBand; infer_instance

instance (v : ApplicationSession) : Decidable (claimDeletingBand v) := by
  unfold claimDeletingBand; infer_instance

instance (now : Int) (v : ApplicationSession) : Decidable (claimTimeoutBand now v) := by
  unfold claimTimeoutBand; infer_instance

instance (now : Int) (v : ApplicationSession) : Decidable (claimPendingBand now v) := by
  unfold claimPendingBand; infer_instance

instance (now : Int) (v : ApplicationSession) : Decidable (claimActiveBand now v) := by
  unfold claimActiveBand; infer_instance

/-- `changeSessionStatus` (`application_session.go` lines 183-192): deep-copy
the session and its status, overwrite the status value, clear the client
sessions for the terminal targets, and hand both to
`SessionManager.UpdateSessionStatus`.  The returned pair is exactly the
argument pair of that call; the function touches no pool state. -/
def changeSessionStatus (v : ApplicationSession) (status : SessionStatusV) :
    ApplicationSession × ApplicationSessionStatus :=
  let session := v
  let newStatus := { v.status with sessionStatus := status }
  let newStatus :=
    if status = SessionStatusV.Closed ∨ status = SessionStatusV.Timeout then
      { newStatus with clientSessions := [] }
    else
      newStatus
  (session, newStatus)

/-- External calls the scheduler can emit to SessionManager / PodManager. -/
inductive ExtCall where
  | openSessionCall (podName sessionUid : String)
  | closeSessionCall (podName sessionUid : String)
  | updateSessionStatusCall (sessionUid : String) (newStatus : ApplicationSessionStatus)
  | terminatePodCall (podName : String)
deriving DecidableEq, Repr

/-- Oracle outcomes of the external collaborators: `findPod` is
`PodManager.FindPod`, the error oracles tell whether the corresponding
SessionManager RPC fails for a given pod name / session uid. -/
structure Env where
  findPod : String → Option Pod
  openSessionErr : String → String → Bool
  closeSessionErr : String → String → Bool
  updateStatusErr : Bool

/-- Status built by `bindSessionToPod` (`application_session.go` lines
423-436) before `OpenSession` is attempted: deep-copy, set Starting, run the
nested container/port loop, set the pod reference.  NOTE the loop body is
`newStatus.AccessEndPoints = append(session.Status.AccessEndPoints, ...)`,
appending to the ORIGINAL endpoint slice each iteration, exactly as in the
source. -/
def bindSessionToPodStatus (session : ApplicationSession) (pod : Pod) :
    ApplicationSessionStatus :=
  let newStatus := { session.status with sessionStatus := SessionStatusV.Starting }
  let newStatus :=
    pod.containers.foldl
      (fun ns cont =>
        cont.ports.foldl
          (fun ns port =>
            { ns with accessEndPoints := session.status.accessEndPoints ++
                [{ protocol := port.protocol, ipAddress := port.hostIP,
                   port := port.hostPort }] })
          ns)
      newStatus
  { newStatus with podReference := some { name := pod.name } }

/-- `bindSessionToPod` (`application_session.go` lines 421-446): install the
new status, call `OpenSession`, and on error restore the prior status
snapshot.  Returns the resulting session, the emitted calls, and whether an
error was returned. -/
def bindSessionToPod (env : Env) (session : ApplicationSession) (pod : Pod) :
    ApplicationSession × List ExtCall × Bool :=
  let newStatus := bindSessionToPodStatus session pod
  let oldStatus := session.status
  let session1 := { session with status := newStatus }
  if env.openSessionErr pod.name session.uid then
    ({ session1 with status := oldStatus },
     [ExtCall.openSessionCall pod.name session.uid], true)
  else
    (session1, [ExtCall.openSessionCall pod.name session.uid], false)

/-- `closeApplicationSession` (`application_session.go` lines 448-471).
Returns the resulting session, the emitted calls, and whether an error was
returned. -/
def closeApplicationSession (env : Env) (session : ApplicationSession) :
    ApplicationSession × List ExtCall × Bool :=
  if sessionIsOpen session then
    match session.status.podReference with
    | some ref =>
      match env.findPod ref.name with
      | some pod =>
        let session1 :=
          { session with status :=
              { session.status with sessionStatus := SessionStatusV.Closing } }
        (session1, [ExtCall.closeSessionCall pod.name session.uid],
         env.closeSessionErr pod.name session.uid)
      | none =>
        let r := changeSessionStatus session SessionStatusV.Closed
        (session, [ExtCall.updateSessionStatusCall r.1.uid r.2], false)
    | none => (session, [], false)
  else
    (session, [], false)

/-- A pod entry of the pool: its name plus the set of bound session uids.
Modelled from the spec: the pool pod type (`NewApplicationPod`) is missing
from `src/`. -/
structure ApplicationPod where
  podName : String
  sessions : List String
deriving DecidableEq, Repr

/-- `ApplicationPool`: sessions keyed by uid, pods keyed by name.
Modelled from the spec: the pool's pod map is missing from `src/`. -/
structure ApplicationPool where
  sessions : List (String × ApplicationSession)
  pods : List (String × ApplicationPod)
deriving DecidableEq, Repr

/-- The manager's registry of pools plus the application work queue. -/
structure ManagerState where
  pools : List (String × ApplicationPool)
  appQueue : List String
deriving DecidableEq, Repr

def emptyPool : ApplicationPool := { sessions := [], pods := [] }

def emptyManagerState : ManagerState := { pools := [], appQueue := [] }

/-- Modelled from the spec: `getOrCreateApplicationPool` creates the pool
lazily and registers it. -/
def getOrCreateApplicationPool (st : ManagerState) (key : String) :
    ManagerState × ApplicationPool :=
  match aget st.pools key with
  | some pool => (st, pool)
  | none => ({ st with pools := aset st.pools key emptyPool }, emptyPool)

/-- Modelled from the spec: `enqueueApplication` marks the application
dirty (work-queue add). -/
def enqueueApplication (st : ManagerState) (key : String) : ManagerState :=
  { st with appQueue := st.appQueue ++ [key] }

/-- Look a session up across the registry: pool of `key`, then uid. -/
def sessionInPool (st : ManagerState) (key uid : String) : Option ApplicationSession :=
  match aget st.pools key with
  | some pool => aget pool.sessions uid
  | none => none

/-- Look a pool pod entry up across the registry. -/
def podInPool (st : ManagerState) (key podName : String) : Option ApplicationPod :=
  match aget st.pools key with
  | some pool => aget pool.pods podName
  | none => none

/-- `updateSessionPool` (`application_session.go` lines 205-231): terminal
sessions are removed (and their uid dropped from the referenced pod's set);
live non-delete updates upsert pod and session; a delete of a non-terminal
session only stamps the cached copy's deletion timestamp. -/
def updateSessionPool (st : ManagerState) (applicationKey : String)
    (session : ApplicationSession) (deleted : Bool) (now : Int) : ManagerState :=
  let sessionId := session.uid
  let r := getOrCreateApplicationPool st applicationKey
  let st1 := r.1
  let pool := r.2
  if sessionInTerminalState session then
    let pool1 :=
      match session.status.podReference with
      | some ref =>
        match aget pool.pods ref.name with
        | some pod =>
          let pod1 := { pod with sessions := setDel pod.sessions sessionId }
          { pool with pods := aset pool.pods ref.name pod1 }
        | none => pool
      | none => pool
    let pool2 := { pool1 with sessions := adel pool1.sessions sessionId }
    { st1 with pools := aset st1.pools applicationKey pool2 }
  else if deleted = false then
    let pool1 :=
      match session.status.podReference with
      | some ref =>
        let pod := (aget pool.pods ref.name).getD { podName := ref.name, sessions := [] }
        let pod1 := { pod with sessions := setAdd pod.sessions sessionId }
        { pool with pods := aset pool.pods ref.name pod1 }
      | none => pool
    let pool2 := { pool1 with sessions := aset pool1.sessions sessionId session }
    { st1 with pools := aset st1.pools applicationKey pool2 }
  else
    match aget pool.sessions sessionId with
    | some savedSession =>
      if savedSession.deletionTimestamp = none then
        let saved1 := { savedSession with deletionTimestamp := some now }
        let pool2 := { pool with sessions := aset pool.sessions sessionId saved1 }
        { st1 with pools := aset st1.pools applicationKey pool2 }
      else
        st1
    | none => st1

/-- One call to `updateSessionPool`, as an event of a sequence. -/
structure PoolUpdate where
  applicationKey : String
  session : ApplicationSession
  deleted : Bool
  now : Int
deriving Repr

/-- Apply a sequence of `updateSessionPool` calls. -/
def applyPoolUpdates (st : ManagerState) (us : List PoolUpdate) : ManagerState :=
  us.foldl (fun st u => updateSessionPool st u.applicationKey u.session u.deleted u.now) st

/-- No session stored in the pool is in a terminal state. -/
def poolNoTerminal (pool : ApplicationPool) : Prop :=
  ∀ p ∈ pool.sessions, sessionInTerminalState p.2 = false

/-- No session stored in any pool of the registry is terminal. -/
def stateNoTerminal (st : ManagerState) : Prop :=
  ∀ q ∈ st.pools, poolNoTerminal q.2

instance (pool : ApplicationPool) : Decidable (poolNoTerminal pool) := by
  unfold poolNoTerminal; infer_instance

instance (st : ManagerState) : Decidable (stateNoTerminal st) := by
  unfold stateNoTerminal; infer_instance

/-- Stamp the current time as deletion timestamp when none is set
(`session.DeletionTimestamp = util.NewCurrentMetaTime()` guarded by nil). -/
def ensureDeletionTimestamp (now : Int) (session : ApplicationSession) : ApplicationSession :=
  if session.deletionTimestamp = none then
    { session with deletionTimestamp := some now }
  else
    session

/-- `onApplicationSessionDeleteEvent` (`application_session.go` lines
289-305): stamp the deletion timestamp if absent, resolve the application
key (return on error), update the pool with `deleted = true`, enqueue. -/
def onApplicationSessionDeleteEvent (_env : Env) (now : Int) (st : ManagerState)
    (session : ApplicationSession) : ManagerState × List ExtCall :=
  let session1 := ensureDeletionTimestamp now session
  match getSessionApplicationKey session1 with
  | none => (st, [])
  | some applicationKey =>
    let st1 := updateSessionPool st applicationKey session1 true now
    (enqueueApplication st1 applicationKey, [])

/-- `onApplicationSessionAddEvent` (`application_session.go` lines 236-253).
NOTE: as in the source, the error branch of the key resolution does NOT
return; the handler falls through with `applicationKey = ""` and still
updates the pool and enqueues. -/
def onApplicationSessionAddEvent (env : Env) (now : Int) (st : ManagerState)
    (session : ApplicationSession) : ManagerState × List ExtCall :=
  if session.deletionTimestamp ≠ none then
    onApplicationSessionDeleteEvent env now st session
  else
    let keyRes := getSessionApplicationKey session
    let r :=
      match keyRes with
      | some _ => (session, ([] : List ExtCall))
      | none =>
        if sessionIsOpen session then
          let c := closeApplicationSession env session
          (c.1, c.2.1)
        else
          (session, [])
    let applicationKey := keyRes.getD ""
    let st1 := updateSessionPool st applicationKey r.1 false now
    (enqueueApplication st1 applicationKey, r.2)

/-- `onApplicationSessionUpdateEvent` (`application_session.go` lines
259-286).  As in the source the invalid-key branch does not return; the
cached pool copy replaces the old snapshot when present; the application is
enqueued only when deletion was newly requested or the status changed. -/
def onApplicationSessionUpdateEvent (env : Env) (now : Int) (st : ManagerState)
    (old cur : ApplicationSession) : ManagerState × List ExtCall :=
  if old = cur then
    (st, [])
  else
    let keyRes := getSessionApplicationKey cur
    let r :=
      match keyRes with
      | some _ => (cur, ([] : List ExtCall))
      | none =>
        if sessionIsOpen cur then
          let c := closeApplicationSession env cur
          (c.1, c.2.1)
        else
          (cur, [])
    let cur1 := r.1
    let applicationKey := keyRes.getD ""
    let g := getOrCreateApplicationPool st applicationKey
    let st1 := g.1
    let old1 :=
      match aget g.2.sessions cur1.uid with
      | some v => v
      | none => old
    let st2 := updateSessionPool st1 applicationKey cur1 false now
    if (cur1.deletionTimestamp ≠ none ∧ old1.deletionTimestamp = none) ∨
        ¬(old1.status = cur1.status) then
      (enqueueApplication st2 applicationKey, r.2)
    else
      (st2, r.2)

/-- First half of `onSessionEventFromNode` (`application_session.go` lines
156-173): absent a cached copy the event is treated as add (or delete if
the reported status is terminal), else as update plus an asynchronous
status persist of the status copy taken at entry.  In the source, a missing
pool would nil-panic at `pool.getSession`; the model treats it as "no
cached copy". -/
def onSessionEventFromNodeDispatch (env : Env) (now : Int) (st : ManagerState)
    (se : SessionEvent) : ManagerState × List ExtCall :=
  let session := se.session
  let newStatus := session.status
  let applicationKey := session.spec.applicationName
  let oldCopy : Option ApplicationSession :=
    match aget st.pools applicationKey with
    | some pool => aget pool.sessions session.uid
    | none => none
  match oldCopy with
  | none =>
    if sessionIsClosed session then
      onApplicationSessionDeleteEvent env now st session
    else
      onApplicationSessionAddEvent env now st session
  | some old =>
    let u := onApplicationSessionUpdateEvent env now st old session
    (u.1, u.2 ++ [ExtCall.updateSessionStatusCall session.uid newStatus])

/-- `onSessionEventFromNode` (`application_session.go` lines 153-181):
dispatch the event, then terminate the pod when the status reported by the
node (deep-copied at entry, before any handler runs, hence
`se.session.status` here) is Closed, the spec asks kill-on-close, and the
pod is not already terminated. -/
def onSessionEventFromNode (env : Env) (now : Int) (st : ManagerState)
    (se : SessionEvent) : ManagerState × List ExtCall :=
  let newStatus := se.session.status
  let r := onSessionEventFromNodeDispatch env now st se
  if se.session.spec.killInstanceWhenSessionClosed = true ∧
      newStatus.sessionStatus = SessionStatusV.Closed ∧
      podNotTerminated se.pod = true then
    (r.1, r.2 ++ [ExtCall.terminatePodCall se.pod.name])
  else
    r

/-- One attempted `bindSessionToPod` of the bind phase: the pool pod it was
tried on, the session uid, and whether `OpenSession` succeeded. -/
structure BindAttempt where
  podName : String
  sessionUid : String
  success : Bool
deriving DecidableEq, Repr

/-- Bind phase of `syncApplicationSessions` (`application_session.go` lines
335-360): walk the idle running pods; skip a pod whose `FindPod` fails or
whose session set is non-empty; break once every pending session is bound;
on bind failure move to the next pod keeping the same session; on success
add the uid to the pod's set and advance to the next pending session.
Returns the updated pod entries, the final pending index, and the attempts
made. -/
def bindLoop (env : Env) (pendingSessions : List ApplicationSession) :
    List ApplicationPod → Nat → List ApplicationPod × Nat × List BindAttempt
  | [], si => ([], si, [])
  | rp :: rest, si =>
    match env.findPod rp.podName with
    | none =>
      let r := bindLoop env pendingSessions rest si
      (rp :: r.1, r.2.1, r.2.2)
    | some pod =>
      if rp.sessions.length = 0 then
        if si = pendingSessions.length then
          (rp :: rest, si, [])
        else
          match pendingSessions[si]? with
          | none => (rp :: rest, si, [])
          | some session =>
            let b := bindSessionToPod env session pod
            if b.2.2 then
              let r := bindLoop env pendingSessions rest si
              (rp :: r.1, r.2.1,
               { podName := rp.podName, sessionUid := session.uid,
                 success := false } :: r.2.2)
            else
              let rp1 := { rp with sessions := setAdd rp.sessions session.uid }
              let r := bindLoop env pendingSessions rest (si + 1)
              (rp1 :: r.1, r.2.1,
               { podName := rp.podName, sessionUid := session.uid,
                 success := true } :: r.2.2)
      else
        let r := bindLoop env pendingSessions rest si
        (rp :: r.1, r.2.1, r.2.2)

/-- Number of successful attempts. -/
def countSucc (l : List BindAttempt) : Nat :=
  (l.filter (fun a => a.success)).length

/-- The attempt sequence is well-formed for the pending list starting at
index `si`: each attempt targets the current candidate session, a failure
keeps the candidate, a success advances it, and no attempt happens past the
end of the pending list. -/
def attsOk (pending : List ApplicationSession) : List BindAttempt → Nat → Bool
  | [], _ => true
  | a :: rest, si =>
    match pending[si]? with
    | none => false
    | some s =>
      decide (a.sessionUid = s.uid) && attsOk pending rest (if a.success then si + 1 else si)

/-- Is an external call a `TerminatePod` call? -/
def isTerminateCall : ExtCall → Bool
  | ExtCall.terminatePodCall _ => true
  | _ => false

/-- A pending session of application `a/x`, uid `u1`, with no endpoints. -/
def sessionPendingW : ApplicationSession :=
  { uid := "u1", creationTimestamp := 0, deletionTimestamp := none,
    spec := { applicationName := "a/x", sessionData := "d",
              killInstanceWhenSessionClosed := false,
              closeGracePeriodSeconds := none, openTimeoutSeconds := 10 },
    status := { accessEndPoints := [], sessionStatus := SessionStatusV.Pending,
                clientSessions := [], availableTime := none, closeTime := none,
                availableTimeMicro := 0, podReference := none } }

/-- A pod with one container declaring two ports. -/
def podTwoPortsW : Pod :=
  { name := "a/pod1", terminated := false,
    containers := [ { ports :=
        [ { protocol := "TCP", hostIP := "10.0.0.1", hostPort := 8080 },
          { protocol := "TCP", hostIP := "10.0.0.1", hostPort := 9090 } ] } ] }

/-- Environment in which no pod is found and no RPC fails. -/
def envNoPodsW : Env :=
  { findPod := fun _ => none, openSessionErr := fun _ _ => false,
    closeSessionErr := fun _ _ => false, updateStatusErr := false }

/-- Environment in which every `OpenSession` fails. -/
def envOpenFailW : Env :=
  { findPod := fun _ => none, openSessionErr := fun _ _ => true,
    closeSessionErr := fun _ _ => false, updateStatusErr := false }

/-- A session whose application name `a/b/c` is not a valid
namespace/name key. -/
def badKeySessionW : ApplicationSession :=
  { sessionPendingW with spec :=
      { sessionPendingW.spec with applicationName := "a/b/c" } }

/-- A registry holding the pool of `a/x` with the single pending session. -/
def stDeleteW : ManagerState :=
  { pools := [("a/x", { sessions := [("u1", sessionPendingW)], pods := [] })],
    appQueue := [] }

/-- An Available session `u2` of `a/x` bound to pod `P1`. -/
def sessionOpenRefW : ApplicationSession :=
  let st1 : ApplicationSessionStatus :=
    { sessionPendingW.status with
      sessionStatus := SessionStatusV.Available,
      podReference := some { name := "P1" } }
  { sessionPendingW with uid := "u2", status := st1 }

/-- The pod object `P1`. -/
def podP1W : Pod := { name := "P1", containers := [], terminated := false }

/-- The pod object `P2`. -/
def podP2W : Pod := { name := "P2", containers := [], terminated := false }

/-- Environment that finds pods `P1` and `P2`, with no RPC failures. -/
def envFindW : Env :=
  { findPod := fun n => if n = "P1" then some podP1W
               else if n = "P2" then some podP2W else none,
    openSessionErr := fun _ _ => false,
    closeSessionErr := fun _ _ => false, updateStatusErr := false }

/-- Environment of the two-pod bind scenario: `OpenSession` fails on `P1`
and succeeds on `P2`. -/
def envBindW : Env :=
  { findPod := fun n => if n = "P1" then some podP1W
               else if n = "P2" then some podP2W else none,
    openSessionErr := fun p _ => p == "P1",
    closeSessionErr := fun _ _ => false, updateStatusErr := false }

/-- Two idle pool pod entries `P1`, `P2`. -/
def idlePodsW : List ApplicationPod :=
  [ { podName := "P1", sessions := [] }, { podName := "P2", sessions := [] } ]

/-- A Closed copy of the pending session. -/
def sessionClosedW : ApplicationSession :=
  { sessionPendingW with status :=
      { sessionPendingW.status with sessionStatus := SessionStatusV.Closed } }

/-- A pool update sequence: insert the pending session, then report it
Closed (terminal). -/
def poolUpdatesW : List PoolUpdate :=
  [ { applicationKey := "a/x", session := sessionPendingW, deleted := false, now := 0 },
    { applicationKey := "a/x", session := sessionClosedW, deleted := false, now := 1 } ]

theorem aget_aset_self {α : Type} (l : List (String × α)) (k : String) (v : α) :
    aget (aset l k v) k = some v := by
  induction l with
  | nil => simp [aset, aget]
  | cons p rest ih =>
    by_cases h : p.1 = k
    · simp [aset, h, aget]
    · simp [aset, h, aget, ih]

theorem aget_aset_ne {α : Type} (l : List (String × α)) (k k' : String) (v : α)
    (h : ¬(k' = k)) : aget (aset l k v) k' = aget l k' := by
  induction l with
  | nil =>
    simp only [aset, aget]
    rw [if_neg (fun hh => h hh.symm)]
  | cons p rest ih =>
    by_cases hp : p.1 = k
    · simp only [aset, if_pos hp, aget]
      rw [if_neg (fun hh => h hh.symm), if_neg (fun hh => h (hp ▸ hh).symm)]
    · simp only [aset, if_neg hp, aget]
      by_cases hp' : p.1 = k'
      · rw [if_pos hp', if_pos hp']
      · rw [if_neg hp', if_neg hp', ih]

theorem aget_adel_self {α : Type} (l : List (String × α)) (k : String) :
    aget (adel l k) k = none := by
  induction l with
  | nil => simp [adel, aget]
  | cons p rest ih =>
    by_cases h : p.1 = k
    · simp [adel, h, ih]
    · simp [adel, h, aget, ih]

theorem mem_aset {α : Type} {l : List (String × α)} {k : String} {v : α} {q : String × α}
    (h : q ∈ aset l k v) : q = (k, v) ∨ q ∈ l := by
  induction l with
  | nil => simpa [aset] using h
  | cons p rest ih =>
    by_cases hp : p.1 = k
    · simp only [aset, if_pos hp, List.mem_cons] at h
      rcases h with h | h
      · exact Or.inl h
      · exact Or.inr (List.mem_cons_of_mem _ h)
    · simp only [aset, if_neg hp, List.mem_cons] at h
      rcases h with h | h
      · exact Or.inr (h ▸ List.mem_cons_self _ _)
      · rcases ih h with h | h
        · exact Or.inl h
        · exact Or.inr (List.mem_cons_of_mem _ h)

theorem mem_adel {α : Type} {l : List (String × α)} {k : String} {q : String × α}
    (h : q ∈ adel l k) : q ∈ l := by
  induction l with
  | nil => simp [adel] at h
  | cons p rest ih =>
    by_cases hp : p.1 = k
    · simp only [adel, if_pos hp] at h
      exact List.mem_cons_of_mem _ (ih h)
    · simp only [adel, if_neg hp, List.mem_cons] at h
      rcases h with h | h
      · exact h ▸ List.mem_cons_self _ _
      · exact List.mem_cons_of_mem _ (ih h)

theorem aget_mem {α : Type} {l : List (String × α)} {k : String} {v : α}
    (h : aget l k = some v) : (k, v) ∈ l := by
  induction l with
  | nil => simp [aget] at h
  | cons p rest ih =>
    by_cases hp : p.1 = k
    · simp only [aget, if_pos hp, Option.some.injEq] at h
      have : p = (k, v) := by
        cases p
        simp_all
      exact this ▸ List.mem_cons_self _ _
    · simp only [aget, if_neg hp] at h
      exact List.mem_cons_of_mem _ (ih h)

theorem mem_setAdd_self (l : List String) (x : String) : x ∈ setAdd l x := by
  unfold setAdd
  split
  · assumption
  · simp

theorem not_mem_setDel_self (l : List String) (x : String) : x ∉ setDel l x := by
  simp [setDel]

theorem sessionInTerminalState_deletionTimestamp (s : ApplicationSession) (t : Option Int) :
    sessionInTerminalState { s with deletionTimestamp := t } = sessionInTerminalState s := rfl

theorem sessionInTerminalState_ensure (now : Int) (s : ApplicationSession) :
    sessionInTerminalState (ensureDeletionTimestamp now s) = sessionInTerminalState s := by
  unfold ensureDeletionTimestamp
  split <;> rfl

theorem ensureDeletionTimestamp_uid (now : Int) (s : ApplicationSession) :
    (ensureDeletionTimestamp now s).uid = s.uid := by
  unfold ensureDeletionTimestamp
  split <;> rfl

theorem ensureDeletionTimestamp_spec (now : Int) (s : ApplicationSession) :
    (ensureDeletionTimestamp now s).spec = s.spec := by
  unfold ensureDeletionTimestamp
  split <;> rfl

/-- C1 (code bug): the claim says each of the pod's declared container
ports contributes one endpoint appended to the session's prior endpoints,
so a pod with 2 declared ports should contribute 2 endpoints.  The source's
loop body appends to `session.Status.AccessEndPoints` (the original slice)
instead of `newStatus.AccessEndPoints`, so on a two-port pod the status
built by `bindSessionToPod` carries only the LAST port's endpoint: the
status and the pod reference are set as claimed, but `accessEndPoints` has
length 1, not 2. -/
theorem bindSessionToPod_two_ports_single_endpoint :
    podTwoPortsW.containers.foldl (fun n c => n + c.ports.length) 0 = 2 ∧
    sessionPendingW.status.accessEndPoints = [] ∧
    (bindSessionToPodStatus sessionPendingW podTwoPortsW).sessionStatus =
      SessionStatusV.Starting ∧
    (bindSessionToPodStatus sessionPendingW podTwoPortsW).podReference =
      some { name := "a/pod1" } ∧
    (bindSessionToPodStatus sessionPendingW podTwoPortsW).accessEndPoints =
      [{ protocol := "TCP", ipAddress := "10.0.0.1", port := 9090 }] ∧
    ¬((bindSessionToPodStatus sessionPendingW podTwoPortsW).accessEndPoints.length = 2) := by
  refine ⟨rfl, rfl, rfl, rfl, rfl, ?_⟩
  decide

/-- C7: when `OpenSession` fails during `bindSessionToPod`, the session is
reverted to the snapshot taken before the bind — status, pod reference and
access endpoints all as before — and the error is surfaced, so a previously
Pending session is still Pending. -/
theorem bindSessionToPod_error_reverts (env : Env) (session : ApplicationSession) (pod : Pod)
    (h : env.openSessionErr pod.name session.uid = true) :
    (bindSessionToPod env session pod).1 = session ∧
    (bindSessionToPod env session pod).2.2 = true := by
  simp [bindSessionToPod, h]

theorem bindSessionToPod_error_reverts_witness :
    (bindSessionToPod envOpenFailW sessionPendingW podTwoPortsW).1 = sessionPendingW ∧
    (bindSessionToPod envOpenFailW sessionPendingW podTwoPortsW).2.2 = true :=
  bindSessionToPod_error_reverts envOpenFailW sessionPendingW podTwoPortsW rfl

/-- C10: `changeSessionStatus` hands `UpdateSessionStatus` an unmodified
copy of the session together with a status whose `sessionStatus` is the
target value; `clientSessions` is reset to the empty list exactly when the
target is Closed or Timeout, and every other status field is carried over
unchanged.  The function reads no pool state (its embedding takes none). -/
theorem changeSessionStatus_persisted_copy (v : ApplicationSession) (target : SessionStatusV) :
    (changeSessionStatus v target).1 = v ∧
    (changeSessionStatus v target).2.sessionStatus = target ∧
    ((target = SessionStatusV.Closed ∨ target = SessionStatusV.Timeout) →
      (changeSessionStatus v target).2.clientSessions = []) ∧
    (¬(target = SessionStatusV.Closed ∨ target = SessionStatusV.Timeout) →
      (changeSessionStatus v target).2.clientSessions = v.status.clientSessions) ∧
    (changeSessionStatus v target).2.accessEndPoints = v.status.accessEndPoints ∧
    (changeSessionStatus v target).2.podReference = v.status.podReference ∧
    (changeSessionStatus v target).2.availableTime = v.status.availableTime ∧
    (changeSessionStatus v target).2.closeTime = v.status.closeTime ∧
    (changeSessionStatus v target).2.availableTimeMicro = v.status.availableTimeMicro := by
  by_cases h : target = SessionStatusV.Closed ∨ target = SessionStatusV.Timeout <;>
    simp [changeSessionStatus, h]

theorem changeSessionStatus_persisted_copy_witness :
    (changeSessionStatus sessionPendingW SessionStatusV.Closed).2.clientSessions = [] :=
  (changeSessionStatus_persisted_copy sessionPendingW SessionStatusV.Closed).2.2.1 (Or.inl rfl)

/-- C8: for an open session with a pod reference, `closeApplicationSession`
sets the in-memory status to Closing and calls `CloseSession` when
`FindPod` finds the pod; when the pod is not found it persists status
Closed through `UpdateSessionStatus` (leaving the in-memory session
untouched) and returns nil; for a non-open session, or an open session
without a pod reference, it emits no external call and returns nil. -/
theorem closeApplicationSession_cases (env : Env) (session : ApplicationSession) :
    (∀ ref pod, sessionIsOpen session = true →
      session.status.podReference = some ref →
      env.findPod ref.name = some pod →
      closeApplicationSession env session =
        ({ session with status :=
             { session.status with sessionStatus := SessionStatusV.Closing } },
         [ExtCall.closeSessionCall pod.name session.uid],
         env.closeSessionErr pod.name session.uid)) ∧
    (∀ ref, sessionIsOpen session = true →
      session.status.podReference = some ref →
      env.findPod ref.name = none →
      closeApplicationSession env session =
        (session,
         [ExtCall.updateSessionStatusCall session.uid
            (changeSessionStatus session SessionStatusV.Closed).2],
         false)) ∧
    ((sessionIsOpen session = false ∨ session.status.podReference = none) →
      closeApplicationSession env session = (session, [], false)) := by
  refine ⟨?_, ?_, ?_⟩
  · intro ref pod ho hr hf
    simp [closeApplicationSession, ho, hr, hf]
  · intro ref ho hr hf
    simp [closeApplicationSession, ho, hr, hf, changeSessionStatus]
  · intro h
    rcases h with h | h
    · simp [closeApplicationSession, h]
    · by_cases ho : sessionIsOpen session = true
      · simp [closeApplicationSession, ho, h]
      · simp at ho
        simp [closeApplicationSession, ho]

theorem closeApplicationSession_cases_witness :
    closeApplicationSession envFindW sessionOpenRefW =
      ({ sessionOpenRefW with status :=
           { sessionOpenRefW.status with sessionStatus := SessionStatusV.Closing } },
       [ExtCall.closeSessionCall "P1" "u2"], false) :=
  (closeApplicationSession_cases envFindW sessionOpenRefW).1 { name := "P1" } podP1W
    rfl rfl rfl

theorem poolNoTerminal_empty : poolNoTerminal emptyPool := by
  intro p hp
  simp [emptyPool] at hp

theorem getOrCreate_noTerminal (st : ManagerState) (key : String)
    (h : stateNoTerminal st) :
    stateNoTerminal (getOrCreateApplicationPool st key).1 ∧
    poolNoTerminal (getOrCreateApplicationPool st key).2 := by
  unfold getOrCreateApplicationPool
  cases hg : aget st.pools key with
  | some pool =>
    exact ⟨h, h _ (aget_mem hg)⟩
  | none =>
    constructor
    · intro q hq
      rcases mem_aset hq with hq | hq
      · rw [hq]
        exact poolNoTerminal_empty
      · exact h q hq
    · exact poolNoTerminal_empty

theorem stateNoTerminal_asetPool (st : ManagerState) (key : String) (pool : ApplicationPool)
    (h : stateNoTerminal st) (hp : poolNoTerminal pool) :
    stateNoTerminal { st with pools := aset st.pools key pool } := by
  intro q hq
  rcases mem_aset hq with hq | hq
  · rw [hq]
    exact hp
  · exact h q hq

theorem updateSessionPool_preserves_noTerminal (st : ManagerState) (key : String)
    (s : ApplicationSession) (d : Bool) (now : Int) (h : stateNoTerminal st) :
    stateNoTerminal (updateSessionPool st key s d now) := by
  obtain ⟨h1, hp⟩ := getOrCreate_noTerminal st key h
  unfold updateSessionPool
  by_cases ht : sessionInTerminalState s
  · simp only [ht, if_pos rfl, if_true]
    apply stateNoTerminal_asetPool _ _ _ h1
    intro q hq
    have hq' := mem_adel hq
    rcases hr : s.status.podReference with _ | ref
    · simp only [hr] at hq'
      exact hp q hq'
    · simp only [hr] at hq'
      cases hgp : aget (getOrCreateApplicationPool st key).2.pods ref.name with
      | some pod =>
        simp only [hgp] at hq'
        exact hp q hq'
      | none =>
        simp only [hgp] at hq'
        exact hp q hq'
  · simp only [ht]
    by_cases hd : d = false
    · simp only [hd, if_true, Bool.false_eq_true, if_false]
      apply stateNoTerminal_asetPool _ _ _ h1
      intro q hq
      rcases hr : s.status.podReference with _ | ref <;> simp only [hr] at hq
      · rcases mem_aset hq with hq | hq
        · rw [hq]
          simpa using ht
        · exact hp q hq
      · rcases mem_aset hq with hq | hq
        · rw [hq]
          simpa using ht
        · exact hp q hq
    · simp only [hd, if_false, Bool.false_eq_true]
      cases hgs : aget (getOrCreateApplicationPool st key).2.sessions s.uid with
      | some saved =>
        simp only [hgs]
        by_cases hdel : saved.deletionTimestamp = none
        · simp only [hdel, if_pos rfl, if_true]
          apply stateNoTerminal_asetPool _ _ _ h1
          intro q hq
          rcases mem_aset hq with hq | hq
          · rw [hq]
            have := hp _ (aget_mem hgs)
            simpa [sessionInTerminalState_deletionTimestamp] using this
          · exact hp q hq
        · simp only [hdel, if_false]
          exact h1
      | none =>
        simp only [hgs]
        exact h1

theorem updateSessionPool_terminal_removed (st : ManagerState) (key : String)
    (s : ApplicationSession) (d : Bool) (now : Int)
    (ht : sessionInTerminalState s = true) :
    sessionInPool (updateSessionPool st key s d now) key s.uid = none ∧
    (∀ ref pod, s.status.podReference = some ref →
      podInPool (updateSessionPool st key s d now) key ref.name = some pod →
      s.uid ∉ pod.sessions) := by
  unfold updateSessionPool
  simp only [ht, if_true]
  constructor
  · unfold sessionInPool
    rw [aget_aset_self]
    rcases hr : s.status.podReference with _ | ref
    · exact aget_adel_self _ _
    · cases hgp : aget (getOrCreateApplicationPool st key).2.pods ref.name <;>
        simp only [hgp] <;> exact aget_adel_self _ _
  · intro ref pod href hpod
    unfold podInPool at hpod
    rw [aget_aset_self] at hpod
    simp only [href] at hpod
    cases hgp : aget (getOrCreateApplicationPool st key).2.pods ref.name with
    | some pod0 =>
      simp only [hgp, aget_aset_self, Option.some.injEq] at hpod
      rw [← hpod]
      exact not_mem_setDel_self _ _
    | none =>
      simp only [hgp] at hpod
      simp at hpod

/-- C5: across any sequence of `updateSessionPool` calls from a registry
holding no terminal session, no pool ever holds a terminal (Closed or
Timeout) session afterwards; moreover a single call on a terminal session
deletes it from the pool and removes its uid from its referenced pod's
session set when that pod entry is in the pool, and (per the invariant) a
terminal session is never inserted. -/
theorem updateSessionPool_never_terminal (st : ManagerState) (us : List PoolUpdate)
    (h : stateNoTerminal st) :
    stateNoTerminal (applyPoolUpdates st us) ∧
    (∀ key s d now, sessionInTerminalState s = true →
      sessionInPool (updateSessionPool st key s d now) key s.uid = none ∧
      (∀ ref pod, s.status.podReference = some ref →
        podInPool (updateSessionPool st key s d now) key ref.name = some pod →
        s.uid ∉ pod.sessions)) := by
  constructor
  · unfold applyPoolUpdates
    induction us generalizing st with
    | nil => exact h
    | cons u rest ih =>
      rw [List.foldl_cons]
      exact ih _ (updateSessionPool_preserves_noTerminal _ _ _ _ _ h)
  · intro key s d now ht
    exact updateSessionPool_terminal_removed st key s d now ht

theorem updateSessionPool_never_terminal_witness :
    stateNoTerminal (applyPoolUpdates emptyManagerState poolUpdatesW) ∧
    sessionInPool (updateSessionPool emptyManagerState "a/x" sessionClosedW false 1) "a/x" "u1" =
      none := by
  have h := updateSessionPool_never_terminal emptyManagerState poolUpdatesW (by decide)
  exact ⟨h.1, (h.2 "a/x" sessionClosedW false 1 (by decide)).1⟩

/-- C4 counterexample: a delete event for a session that is not yet
terminal (here: Pending, cached in the pool of `a/x`) does NOT remove the
session from the pool — the handler only stamps the cached copy's deletion
timestamp, contradicting the claim "removes the session from the pool". -/
theorem deleteEvent_keeps_nonterminal_session :
    sessionInTerminalState sessionPendingW = false ∧
    sessionInPool (onApplicationSessionDeleteEvent envNoPodsW 5 stDeleteW sessionPendingW).1
        "a/x" "u1" =
      some ({ sessionPendingW with deletionTimestamp := some 5 }) := by
  constructor
  · rfl
  · rfl

theorem updateSessionPool_deleted_nonterminal (st : ManagerState) (key : String)
    (s : ApplicationSession) (now : Int)
    (ht : sessionInTerminalState s = false) :
    sessionInPool (updateSessionPool st key s true now) key s.uid =
      (sessionInPool st key s.uid).map
        (fun q => if q.deletionTimestamp = none then
            { q with deletionTimestamp := some now } else q) := by
  unfold updateSessionPool getOrCreateApplicationPool
  simp only [ht, Bool.false_eq_true, Bool.true_eq_false, if_false]
  cases hpool : aget st.pools key with
  | some pool =>
    simp only [hpool]
    cases hgs : aget pool.sessions s.uid with
    | some saved =>
      simp only [hgs]
      by_cases hdel : saved.deletionTimestamp = none
      · simp only [hdel, if_true]
        unfold sessionInPool
        rw [aget_aset_self]
        simp [hpool, hgs, aget_aset_self, hdel]
      · simp only [hdel, if_false]
        unfold sessionInPool
        simp [hpool, hgs, hdel]
    | none =>
      simp only [hgs]
      unfold sessionInPool
      simp [hpool, hgs]
  | none =>
    simp only [hpool]
    have hemp : aget emptyPool.sessions s.uid = none := rfl
    simp only [hemp]
    unfold sessionInPool
    rw [aget_aset_self]
    simp [hpool, hemp]

theorem sessionInPool_enqueue (st : ManagerState) (k key uid : String) :
    sessionInPool (enqueueApplication st k) key uid = sessionInPool st key uid := rfl

/-- C4 (amended): for a delete event whose session has a valid
namespace/name application key, the handler ensures the deletion timestamp
is set (synthesizing `now` if absent) and enqueues the owning application;
it removes the session from the pool only when the session is already in a
terminal state — for a non-terminal session it instead stamps the current
time as the cached pool copy's deletion timestamp (when that copy has none)
and leaves the session in the pool. -/
theorem onApplicationSessionDeleteEvent_amended (env : Env) (now : Int) (st : ManagerState)
    (session : ApplicationSession)
    (h : isValidMetaNamespaceKey session.spec.applicationName = true) :
    (ensureDeletionTimestamp now session).deletionTimestamp ≠ none ∧
    session.spec.applicationName ∈
      (onApplicationSessionDeleteEvent env now st session).1.appQueue ∧
    (sessionInTerminalState session = true →
      sessionInPool (onApplicationSessionDeleteEvent env now st session).1
        session.spec.applicationName session.uid = none) ∧
    (sessionInTerminalState session = false →
      sessionInPool (onApplicationSessionDeleteEvent env now st session).1
        session.spec.applicationName session.uid =
      (sessionInPool st session.spec.applicationName session.uid).map
        (fun q => if q.deletionTimestamp = none then
            { q with deletionTimestamp := some now } else q)) := by
  have hkey : getSessionApplicationKey (ensureDeletionTimestamp now session) =
      some session.spec.applicationName := by
    unfold getSessionApplicationKey
    rw [ensureDeletionTimestamp_spec, if_pos h]
  refine ⟨?_, ?_, ?_, ?_⟩
  · unfold ensureDeletionTimestamp
    split <;> simp_all
  · simp only [onApplicationSessionDeleteEvent, hkey, enqueueApplication]
    simp
  · intro ht
    simp only [onApplicationSessionDeleteEvent, hkey]
    rw [sessionInPool_enqueue, ← ensureDeletionTimestamp_uid now session]
    have ht1 : sessionInTerminalState (ensureDeletionTimestamp now session) = true := by
      rw [sessionInTerminalState_ensure]
      exact ht
    exact (updateSessionPool_terminal_removed st _ _ true now ht1).1
  · intro ht
    simp only [onApplicationSessionDeleteEvent, hkey]
    rw [sessionInPool_enqueue, ← ensureDeletionTimestamp_uid now session]
    have ht1 : sessionInTerminalState (ensureDeletionTimestamp now session) = false := by
      rw [sessionInTerminalState_ensure]
      exact ht
    exact updateSessionPool_deleted_nonterminal st _ _ now ht1

theorem onApplicationSessionDeleteEvent_amended_witness :
    sessionInPool (onApplicationSessionDeleteEvent envNoPodsW 5 stDeleteW sessionPendingW).1
        "a/x" "u1" =
      (sessionInPool stDeleteW "a/x" "u1").map
        (fun q => if q.deletionTimestamp = none then
            { q with deletionTimestamp := some 5 } else q) :=
  (onApplicationSessionDeleteEvent_amended envNoPodsW 5 stDeleteW sessionPendingW
    (by decide)).2.2.2 (by decide)

/-- C3 (code bug): a session-add event whose `spec.applicationName`
(`a/b/c`) is not a valid namespace/name key is NOT dropped.  The handler's
error branch lacks a return (unlike the delete handler), so it falls
through with an empty application key: the session IS inserted into the
pool registered under `""` and the application `""` IS enqueued (the
close-if-open part behaves as claimed; this session is Pending, so no call
is emitted). -/
theorem addEvent_invalid_key_not_dropped :
    getSessionApplicationKey badKeySessionW = none ∧
    sessionIsOpen badKeySessionW = false ∧
    (onApplicationSessionAddEvent envNoPodsW 0 emptyManagerState badKeySessionW).2 = [] ∧
    sessionInPool (onApplicationSessionAddEvent envNoPodsW 0 emptyManagerState badKeySessionW).1
        "" "u1" = some badKeySessionW ∧
    "" ∈ (onApplicationSessionAddEvent envNoPodsW 0 emptyManagerState badKeySessionW).1.appQueue := by
  refine ⟨?_, rfl, rfl, rfl, ?_⟩
  · decide
  · decide

theorem groupStep_timeoutDuration (v : ApplicationSession) :
    (if v.spec.openTimeoutSeconds > 0 then (v.spec.openTimeoutSeconds : Int)
     else defaultSessionOpenTimeoutSeconds) = claimOpenTimeout v := rfl

theorem groupStep_bands (now : Int) (acc : SessionBands) (u : ApplicationSession) :
    (groupStep now acc u).closingSessions =
      (if claimClosingBand u then acc.closingSessions ++ [u] else acc.closingSessions) ∧
    (groupStep now acc u).deletingSessions =
      (if claimDeletingBand u then acc.deletingSessions ++ [u] else acc.deletingSessions) ∧
    (groupStep now acc u).timeoutSessions =
      (if claimTimeoutBand now u then acc.timeoutSessions ++ [u] else acc.timeoutSessions) ∧
    (groupStep now acc u).pendingSessions =
      (if claimPendingBand now u then acc.pendingSessions ++ [u] else acc.pendingSessions) ∧
    (groupStep now acc u).activeSessions =
      (if claimActiveBand now u then acc.activeSessions ++ [u] else acc.activeSessions) := by
  have hiff : ∀ t : Int, (u.creationTimestamp < now - t) ↔ (now - u.creationTimestamp > t) := by
    intro t
    omega
  by_cases ht : now - u.creationTimestamp > claimOpenTimeout u <;>
    cases hd : u.deletionTimestamp <;>
    cases hs : u.status.sessionStatus <;>
    simp [groupStep, groupStep_timeoutDuration, claimClosingBand, claimDeletingBand,
      claimTimeoutBand, claimPendingBand, claimActiveBand, sessionIsPending, sessionIsOpen,
      hd, hs, hiff, ht]

theorem mem_foldl_groupStep (now : Int) (proj : SessionBands → List ApplicationSession)
    (C : ApplicationSession → Prop) [DecidablePred C]
    (hstep : ∀ acc u, proj (groupStep now acc u) =
      if C u then proj acc ++ [u] else proj acc) :
    ∀ (l : List ApplicationSession) (acc : SessionBands) (v : ApplicationSession),
      (v ∈ proj (l.foldl (groupStep now) acc) ↔ v ∈ proj acc ∨ (v ∈ l ∧ C v)) := by
  intro l
  induction l with
  | nil =>
    intro acc v
    simp
  | cons u rest ih =>
    intro acc v
    rw [List.foldl_cons, ih, hstep]
    by_cases hc : C u
    · simp only [if_pos hc, List.mem_append, List.mem_singleton, List.mem_cons,
        List.not_mem_nil, or_false]
      constructor
      · rintro ((h | rfl) | h)
        · exact Or.inl h
        · exact Or.inr ⟨Or.inl rfl, hc⟩
        · exact Or.inr ⟨Or.inr h.1, h.2⟩
      · rintro (h | ⟨(rfl | h), hcv⟩)
        · exact Or.inl (Or.inl h)
        · exact Or.inl (Or.inr rfl)
        · exact Or.inr ⟨h, hcv⟩
    · simp only [if_neg hc, List.mem_cons]
      constructor
      · rintro (h | h)
        · exact Or.inl h
        · exact Or.inr ⟨Or.inr h.1, h.2⟩
      · rintro (h | ⟨(rfl | h), hcv⟩)
        · exact Or.inl h
        · exact absurd hcv hc
        · exact Or.inr ⟨h, hcv⟩

/-- C2: `groupSessionsByState` assigns each session of the pool to at most
one of the five bands, by the claimed precedence: closing iff the status is
Closing; else deleting iff a deletion timestamp is set; else timeout iff
the status is Unspecified, Pending or Starting and `now` minus the creation
time exceeds the open timeout (`spec.openTimeoutSeconds` seconds when
positive, else 10 s); else pending iff the status is Unspecified or
Pending; else active iff the status is Starting, Available or InUse.  The
five conditions are mutually exclusive by construction, so the bands are
disjoint for distinct sessions. -/
theorem groupSessionsByState_bands (now : Int) (l : List ApplicationSession)
    (v : ApplicationSession) :
    (v ∈ (groupSessionsByState now l).closingSessions ↔ v ∈ l ∧ claimClosingBand v) ∧
    (v ∈ (groupSessionsByState now l).deletingSessions ↔ v ∈ l ∧ claimDeletingBand v) ∧
    (v ∈ (groupSessionsByState now l).timeoutSessions ↔ v ∈ l ∧ claimTimeoutBand now v) ∧
    (v ∈ (groupSessionsByState now l).pendingSessions ↔ v ∈ l ∧ claimPendingBand now v) ∧
    (v ∈ (groupSessionsByState now l).activeSessions ↔ v ∈ l ∧ claimActiveBand now v) := by
  unfold groupSessionsByState
  refine ⟨?_, ?_, ?_, ?_, ?_⟩
  · rw [mem_foldl_groupStep now (fun b => b.closingSessions) (fun u => claimClosingBand u)
      (fun acc u => (groupStep_bands now acc u).1)]
    simp
  · rw [mem_foldl_groupStep now (fun b => b.deletingSessions) (fun u => claimDeletingBand u)
      (fun acc u => (groupStep_bands now acc u).2.1)]
    simp
  · rw [mem_foldl_groupStep now (fun b => b.timeoutSessions) (fun u => claimTimeoutBand now u)
      (fun acc u => (groupStep_bands now acc u).2.2.1)]
    simp
  · rw [mem_foldl_groupStep now (fun b => b.pendingSessions) (fun u => claimPendingBand now u)
      (fun acc u => (groupStep_bands now acc u).2.2.2.1)]
    simp
  · rw [mem_foldl_groupStep now (fun b => b.activeSessions) (fun u => claimActiveBand now u)
      (fun acc u => (groupStep_bands now acc u).2.2.2.2)]
    simp

theorem closeApplicationSession_no_terminate (env : Env) (session : ApplicationSession) :
    ∀ c ∈ (closeApplicationSession env session).2.1, isTerminateCall c = false := by
  unfold closeApplicationSession
  by_cases ho : sessionIsOpen session = true
  · simp only [ho, if_true]
    cases hr : session.status.podReference with
    | none => simp
    | some ref =>
      cases hf : env.findPod ref.name with
      | none => simp [hf, isTerminateCall]
      | some pod => simp [hf, isTerminateCall]
  · simp only [ho]
    simp at ho
    simp [ho]

theorem deleteEvent_calls_nil (env : Env) (now : Int) (st : ManagerState)
    (session : ApplicationSession) :
    (onApplicationSessionDeleteEvent env now st session).2 = [] := by
  unfold onApplicationSessionDeleteEvent
  cases hk : getSessionApplicationKey (ensureDeletionTimestamp now session) <;> simp [hk]

theorem addEvent_no_terminate (env : Env) (now : Int) (st : ManagerState)
    (session : ApplicationSession) :
    ∀ c ∈ (onApplicationSessionAddEvent env now st session).2, isTerminateCall c = false := by
  unfold onApplicationSessionAddEvent
  by_cases hd : session.deletionTimestamp ≠ none
  · rw [if_pos hd, deleteEvent_calls_nil]
    simp
  · rw [if_neg hd]
    cases hk : getSessionApplicationKey session with
    | some key => simp [hk]
    | none =>
      simp only [hk]
      by_cases ho : sessionIsOpen session = true
      · simp only [ho, if_true]
        exact closeApplicationSession_no_terminate env session
      · simp only [ho]
        simp at ho
        simp [ho]

theorem updateEvent_no_terminate (env : Env) (now : Int) (st : ManagerState)
    (old cur : ApplicationSession) :
    ∀ c ∈ (onApplicationSessionUpdateEvent env now st old cur).2, isTerminateCall c = false := by
  unfold onApplicationSessionUpdateEvent
  by_cases he : old = cur
  · simp [he]
  · rw [if_neg he]
    cases hk : getSessionApplicationKey cur with
    | some key =>
      simp only [hk]
      split <;> simp
    | none =>
      simp only [hk]
      by_cases ho : sessionIsOpen cur = true
      · simp only [ho, if_true]
        split <;> exact closeApplicationSession_no_terminate env cur
      · simp only [ho]
        split
        · simp_all
        · split <;> simp

theorem dispatch_no_terminate (env : Env) (now : Int) (st : ManagerState) (se : SessionEvent) :
    ∀ c ∈ (onSessionEventFromNodeDispatch env now st se).2, isTerminateCall c = false := by
  unfold onSessionEventFromNodeDispatch
  cases hpool : aget st.pools se.session.spec.applicationName with
  | none =>
    simp only [hpool]
    by_cases hc : sessionIsClosed se.session = true
    · simp only [hc, if_true]
      rw [deleteEvent_calls_nil]
      simp
    · simp only [hc, if_false]
      exact addEvent_no_terminate env now st se.session
  | some pool =>
    simp only [hpool]
    cases hold : aget pool.sessions se.session.uid with
    | none =>
      simp only [hold]
      by_cases hc : sessionIsClosed se.session = true
      · simp only [hc, if_true]
        rw [deleteEvent_calls_nil]
        simp
      · simp only [hc, if_false]
        exact addEvent_no_terminate env now st se.session
    | some old =>
      simp only [hold]
      intro c hc
      simp only [List.mem_append, List.mem_singleton] at hc
      rcases hc with hc | hc
      · exact updateEvent_no_terminate env now st old se.session c hc
      · rw [hc]
        rfl

/-- C9: `onSessionEventFromNode` calls `PodManager.TerminatePod` on the
event's pod if and only if the status reported by the node is Closed, the
session spec has `killInstanceWhenSessionClosed` set, and the pod is not
already terminated — irrespective of whether a cached copy of the session
exists in the pool (the add / update / delete dispatch never emits a
terminate call). -/
theorem onSessionEventFromNode_terminate_iff (env : Env) (now : Int) (st : ManagerState)
    (se : SessionEvent) :
    ExtCall.terminatePodCall se.pod.name ∈ (onSessionEventFromNode env now st se).2 ↔
      (se.session.spec.killInstanceWhenSessionClosed = true ∧
       se.session.status.sessionStatus = SessionStatusV.Closed ∧
       podNotTerminated se.pod = true) := by
  unfold onSessionEventFromNode
  by_cases hc : se.session.spec.killInstanceWhenSessionClosed = true ∧
      se.session.status.sessionStatus = SessionStatusV.Closed ∧
      podNotTerminated se.pod = true
  · rw [if_pos hc]
    simp only [List.mem_append, List.mem_singleton]
    constructor
    · intro _
      exact hc
    · intro _
      exact Or.inr trivial
  · rw [if_neg hc]
    constructor
    · intro hmem
      have := dispatch_no_terminate env now st se _ hmem
      simp [isTerminateCall] at this
    · intro h
      exact absurd h hc

theorem countSucc_cons (a : BindAttempt) (l : List BindAttempt) :
    countSucc (a :: l) = if a.success then countSucc l + 1 else countSucc l := by
  cases hs : a.success <;> simp [countSucc, hs]

/-- C6: within one bind phase of `syncApplicationSessions`, with `si`
starting at a value at most the number of pending sessions: the final index
equals the start plus the number of successful attempts and never exceeds
the pending count (so the phase makes no attempt once every pending session
is bound); the attempt sequence is well-formed — each attempt targets the
current candidate pending session, a failed bind keeps the same session as
candidate for the next pod, a successful bind advances to the next pending
session; every attempt is made on a pod entry whose session set is empty
(a pod with a non-empty set is never offered a session); and after a
successful attempt the pod's resulting entry contains the session's uid. -/
theorem syncBindPhase_spec (env : Env) (pending : List ApplicationSession)
    (pods : List ApplicationPod) (si : Nat) (h : si ≤ pending.length) :
    (bindLoop env pending pods si).2.1 = si + countSucc (bindLoop env pending pods si).2.2 ∧
    (bindLoop env pending pods si).2.1 ≤ pending.length ∧
    attsOk pending (bindLoop env pending pods si).2.2 si = true ∧
    (∀ a ∈ (bindLoop env pending pods si).2.2,
      ∃ rp ∈ pods, rp.podName = a.podName ∧ rp.sessions = []) ∧
    (∀ a ∈ (bindLoop env pending pods si).2.2, a.success = true →
      ∃ rp ∈ (bindLoop env pending pods si).1,
        rp.podName = a.podName ∧ a.sessionUid ∈ rp.sessions) := by
  induction pods generalizing si with
  | nil =>
    simp only [bindLoop]
    exact ⟨by simp [countSucc], h, rfl, by simp, by simp⟩
  | cons rp rest ih =>
    cases hf : env.findPod rp.podName with
    | none =>
      have r := ih si h
      simp only [bindLoop, hf]
      refine ⟨r.1, r.2.1, r.2.2.1, ?_, ?_⟩
      · intro a ha
        obtain ⟨q, hq, h1, h2⟩ := r.2.2.2.1 a ha
        exact ⟨q, List.mem_cons_of_mem _ hq, h1, h2⟩
      · intro a ha hsucc
        obtain ⟨q, hq, h1, h2⟩ := r.2.2.2.2 a ha hsucc
        exact ⟨q, List.mem_cons_of_mem _ hq, h1, h2⟩
    | some pod =>
      simp only [bindLoop, hf]
      by_cases hlen : rp.sessions.length = 0
      · rw [if_pos hlen]
        by_cases hsi : si = pending.length
        · rw [if_pos hsi]
          refine ⟨by simp [countSucc], by simp [hsi], rfl, by simp, by simp⟩
        · have hlt : si < pending.length := Nat.lt_of_le_of_ne h hsi
          have hget : pending[si]? = some (pending[si]) := List.getElem?_eq_getElem hlt
          rw [if_neg hsi]
          simp only [hget]
          have hrpnil : rp.sessions = [] := List.length_eq_zero.mp hlen
          cases hb : (bindSessionToPod env (pending[si]) pod).2.2
          · -- OpenSession succeeded: advance to the next pending session
            simp only [hb, Bool.false_eq_true, if_false]
            have h1 : si + 1 ≤ pending.length := hlt
            have r := ih (si + 1) h1
            refine ⟨?_, ?_, ?_, ?_, ?_⟩
            · have hr := r.1
              simp only [countSucc] at hr ⊢
              simp only [List.filter_cons]
              simp
              omega
            · exact r.2.1
            · simp only [attsOk, hget]
              simp [r.2.2.1]
            · intro a ha
              simp only [List.mem_cons] at ha
              rcases ha with ha | ha
              · exact ⟨rp, List.mem_cons_self _ _, by rw [ha], hrpnil⟩
              · obtain ⟨q, hq, hq1, hq2⟩ := r.2.2.2.1 a ha
                exact ⟨q, List.mem_cons_of_mem _ hq, hq1, hq2⟩
            · intro a ha hsucc
              simp only [List.mem_cons] at ha
              rcases ha with ha | ha
              · refine ⟨{ rp with sessions := setAdd rp.sessions (pending[si]).uid },
                  List.mem_cons_self _ _, by rw [ha], ?_⟩
                rw [ha]
                exact mem_setAdd_self _ _
              · obtain ⟨q, hq, hq1, hq2⟩ := r.2.2.2.2 a ha hsucc
                exact ⟨q, List.mem_cons_of_mem _ hq, hq1, hq2⟩
          · -- OpenSession failed: same candidate session, next pod
            simp only [hb, if_true]
            have r := ih si h
            refine ⟨?_, ?_, ?_, ?_, ?_⟩
            · have hr := r.1
              simp only [countSucc] at hr ⊢
              simp only [List.filter_cons]
              simp
              omega
            · exact r.2.1
            · simp only [attsOk, hget]
              simp [r.2.2.1]
            · intro a ha
              simp only [List.mem_cons] at ha
              rcases ha with ha | ha
              · exact ⟨rp, List.mem_cons_self _ _, by rw [ha], hrpnil⟩
              · obtain ⟨q, hq, hq1, hq2⟩ := r.2.2.2.1 a ha
                exact ⟨q, List.mem_cons_of_mem _ hq, hq1, hq2⟩
            · intro a ha hsucc
              simp only [List.mem_cons] at ha
              rcases ha with ha | ha
              · rw [ha] at hsucc
                simp at hsucc
              · obtain ⟨q, hq, hq1, hq2⟩ := r.2.2.2.2 a ha hsucc
                exact ⟨q, List.mem_cons_of_mem _ hq, hq1, hq2⟩
      · rw [if_neg hlen]
        have r := ih si h
        refine ⟨r.1, r.2.1, r.2.2.1, ?_, ?_⟩
        · intro a ha
          obtain ⟨q, hq, h1, h2⟩ := r.2.2.2.1 a ha
          exact ⟨q, List.mem_cons_of_mem _ hq, h1, h2⟩
        · intro a ha hsucc
          obtain ⟨q, hq, h1, h2⟩ := r.2.2.2.2 a ha hsucc
          exact ⟨q, List.mem_cons_of_mem _ hq, h1, h2⟩

theorem syncBindPhase_spec_witness :
    (bindLoop envBindW [sessionPendingW] idlePodsW 0).2.1 =
      0 + countSucc (bindLoop envBindW [sessionPendingW] idlePodsW 0).2.2 ∧
    attsOk [sessionPendingW] (bindLoop envBindW [sessionPendingW] idlePodsW 0).2.2 0 = true := by
  have h := syncBindPhase_spec envBindW [sessionPendingW] idlePodsW 0 (by decide)
  exact ⟨h.1, h.2.2.1⟩
